import Mathlib

/-!
Verification development for CarVisualizer3D (src/main.js, with the near-identical
variant src/unnamed/part_000).

The program is a WebXR AR viewer.  The parts embedded here are the ones the
claims are about:

* the per-frame `render(timestamp, frame)` callback (main.js 378-409): the
  lazily-latched reference-space / hit-test-source acquisition, the session
  `end` listener that clears the latch and the cached source, and the
  reticle update from the frame's hit-test results;
* `onSelect` (main.js 357-365): placement of the car at the reticle pose;
* the `touchstart` / `touchmove` listeners (main.js 233-266): two-finger
  pinch scale and one-finger yaw rotation.

Modelling conventions:

* JS IEEE-754 doubles are modelled as exact rationals (`ℚ`).  The IEEE
  non-finite regime (NaN / Infinity), which one claim is about, is modelled
  separately by the extended value type `FVal` at the end of the definitions.
* `Math.sqrt` is modelled by a rational function that agrees with the exact
  square root whenever the radicand is a perfect rational square (every
  concrete input used below is of that form).  No theorem in this file
  depends on the value of `Math.sqrt` beyond such inputs: the distances it
  produces are carried through the gesture math symbolically.
* `reticle.matrix` is a 4x4 rigid transform that the program only ever writes
  via `fromArray(hit.getPose(referenceSpace).transform.matrix)` and only ever
  reads via `position.setFromMatrixPosition` / `quaternion.setFromRotationMatrix`.
  It is therefore modelled by the pose it encodes (`Pose` = translation part
  plus rotation part), with the two readers as the corresponding projections.
* The browser event loop is modelled by a list of `Event`s folded through a
  `step` function; each `Event` is one callback invocation.  The asynchronous
  two-stage promise chain `requestReferenceSpace(...).then(... requestHitTestSource
  ... .then(source => hitTestSource = source))` is modelled by a pending-request
  list plus a `resolveHitTestSource` event delivering the eventual assignment;
  the source handle remembers which session it was requested from.
* The `step` function additionally emits a log of observable actions (requests
  issued, hit-test queries made) used to state the temporal claims.
-/

/-- A 3-component vector (`THREE.Vector3`) with rational components. -/
structure Vec3 where
  x : ℚ
  y : ℚ
  z : ℚ
deriving DecidableEq, Repr

/-- `THREE.Vector3.multiplyScalar`: componentwise multiplication by a scalar
(this is what `initialScale.clone().multiplyScalar(scaleFactor)` applies). -/
def Vec3.multiplyScalar (v : Vec3) (s : ℚ) : Vec3 :=
  ⟨v.x * s, v.y * s, v.z * s⟩

/-- A quaternion (`THREE.Quaternion`), the orientation representation written by
`quaternion.setFromRotationMatrix`. -/
structure Quat where
  qx : ℚ
  qy : ℚ
  qz : ℚ
  qw : ℚ
deriving DecidableEq, Repr

/-- The rigid transform encoded by a 4x4 pose matrix (a hit-test result's
`getPose(...).transform.matrix`, and `reticle.matrix` which is only ever written
from such a matrix): a translation part and a rotation part. -/
structure Pose where
  position : Vec3
  orientation : Quat
deriving DecidableEq, Repr

/-- One entry of a `TouchEvent`'s `touches` list: the screen coordinates the
gesture handlers read. -/
structure Touch where
  pageX : ℚ
  pageY : ℚ
deriving DecidableEq, Repr

/-- The state of the placeable object `carModel` (a `THREE.Object3D`): the
fields the embedded handlers read or write.  `position` and `quaternion` are
written by `onSelect`; `rotation` is the Euler-angle view whose `y` component
the one-finger gesture increments; `scale` is written by the pinch gesture.
(THREE.js keeps `rotation` and `quaternion` in sync; no claim mixes the two
write paths, so they are carried as separate fields here.) -/
structure CarModel where
  position : Vec3
  quaternion : Quat
  rotation : Vec3
  scale : Vec3
deriving DecidableEq, Repr

/-- A hit-test source handle (`XRHitTestSource`).  The model remembers the
session the source was requested from, which is what the staleness claims are
about. -/
structure HitSource where
  session : Nat
deriving DecidableEq, Repr

/-- The program's mutable state: the module-level globals of main.js
(`carModel`, `reticle`, `hitTestSource`, `hitTestSourceRequested`) together
with the gesture closure variables (`initialDistance`, `initialScale`,
`previousTouchX`) and the bookkeeping the asynchronous request model needs
(`pendingRequests`: in-flight source requests by session; `endHandlers`:
sessions on which the `end` listener has been registered). -/
structure AppState where
  carModel : Option CarModel
  reticleVisible : Bool
  reticleMatrix : Pose
  hitTestSource : Option HitSource
  hitTestSourceRequested : Bool
  pendingRequests : List Nat
  endHandlers : List Nat
  initialDistance : ℚ
  initialScale : Vec3
  previousTouchX : ℚ
deriving DecidableEq, Repr

/-- Largest `j ≤ k` with `j * j ≤ n` (structurally recursive integer square
root search, used to model `Math.sqrt`). -/
def isqrtAux : Nat → Nat → Nat
  | 0, _ => 0
  | k + 1, n => if (k + 1) * (k + 1) ≤ n then k + 1 else isqrtAux k n

/-- The integer square root: the largest `j` with `j * j ≤ n`. -/
def isqrt (n : Nat) : Nat := isqrtAux n n

/-- `Math.sqrt`, modelled over ℚ: exact on perfect rational squares (for a
reduced fraction a^2/b^2 it returns a/b).  The claims never depend on its
values elsewhere; concrete witnesses below only evaluate it on perfect
squares. -/
def Math.sqrt (q : ℚ) : ℚ :=
  (isqrt q.num.toNat : ℚ) / (isqrt q.den : ℚ)

/-- The inter-finger Euclidean distance computed (with `dx`/`dy` inlined) by
both the `touchstart` and the `touchmove` listener:
`Math.sqrt(dx * dx + dy * dy)` for `dx = t0.pageX - t1.pageX`,
`dy = t0.pageY - t1.pageY`. -/
def touchDistance (t0 t1 : Touch) : ℚ :=
  Math.sqrt ((t0.pageX - t1.pageX) * (t0.pageX - t1.pageX)
    + (t0.pageY - t1.pageY) * (t0.pageY - t1.pageY))

/-- `onSelect` (main.js 357-365): if the reticle is visible and a car model
exists, move the car to the reticle pose
(`carModel.position.setFromMatrixPosition(reticle.matrix)`;
`carModel.quaternion.setFromRotationMatrix(reticle.matrix)`). -/
def onSelect (st : AppState) : AppState :=
  match st.carModel with
  | some car =>
      if st.reticleVisible then
        { st with carModel := some { car with
            position := st.reticleMatrix.position,
            quaternion := st.reticleMatrix.orientation } }
      else st
  | none => st

/-- The `touchstart` listener (main.js 233-245): with exactly two touches and a
car model, record the baseline inter-finger distance and snapshot the car's
scale; with exactly one touch and a car model, record the previous horizontal
coordinate.  (The two `if` branches of the source are mutually exclusive on
`e.touches.length`, hence the single match.) -/
def onTouchStart (st : AppState) (touches : List Touch) : AppState :=
  match touches, st.carModel with
  | [t0, t1], some car =>
      { st with initialDistance := touchDistance t0 t1,
                initialScale := car.scale }
  | [t0], some _ =>
      { st with previousTouchX := t0.pageX }
  | _, _ => st

/-- The `touchmove` listener (main.js 247-266): with exactly two touches, a car
model and a positive baseline distance, set the car's scale to the baseline
scale snapshot times `currentDistance / initialDistance`; with exactly one
touch and a car model, increment the car's yaw by `deltaX * 0.005` and store
the current horizontal coordinate. -/
def onTouchMove (st : AppState) (touches : List Touch) : AppState :=
  match touches, st.carModel with
  | [t0, t1], some car =>
      if st.initialDistance > 0 then
        let currentDistance := touchDistance t0 t1
        let scaleFactor := currentDistance / st.initialDistance
        let newScale := st.initialScale.multiplyScalar scaleFactor
        { st with carModel := some { car with scale := newScale } }
      else st
  | [t0], some car =>
      let deltaX := t0.pageX - st.previousTouchX
      { st with previousTouchX := t0.pageX,
                carModel := some { car with rotation :=
                  { car.rotation with y := car.rotation.y + deltaX * 0.005 } } }
  | _, _ => st

/-- One browser-callback invocation.  `frame s hits` is one `render` call with
an XR frame of session `s` whose hit-test query (if made) returns `hits`;
`resolveHitTestSource s` is the delivery of the asynchronous
`requestHitTestSource` result requested from session `s`; `sessionEnd s` is the
session `end` event; the rest are the user-input callbacks. -/
inductive Event where
  | frame (session : Nat) (hits : List Pose)
  | resolveHitTestSource (session : Nat)
  | sessionEnd (session : Nat)
  | select
  | touchstart (touches : List Touch)
  | touchmove (touches : List Touch)
deriving DecidableEq, Repr

/-- Observable actions of a step, used to state the temporal claims:
`request s` is the issuing of the (reference-space and) hit-test-source
acquisition from session `s`; `query fs ss hits` is a
`frame.getHitTestResults(hitTestSource)` call made during a frame of session
`fs` against a source obtained from session `ss`, returning `hits`. -/
inductive LogEntry where
  | request (session : Nat)
  | query (frameSession sourceSession : Nat) (hits : List Pose)
deriving DecidableEq, Repr

/-- The first block of the XR part of `render` (main.js 383-394): if the
latch `hitTestSourceRequested` is false, issue the asynchronous acquisition
(modelled by appending to `pendingRequests`), register the session `end`
listener and set the latch. -/
def latchPhase (st : AppState) (session : Nat) : AppState × List LogEntry :=
  if st.hitTestSourceRequested = false then
    ({ st with pendingRequests := st.pendingRequests ++ [session],
               endHandlers := session :: st.endHandlers,
               hitTestSourceRequested := true },
     [LogEntry.request session])
  else (st, ([] : List LogEntry))

/-- The second block of the XR part of `render` (main.js 396-405): if a
hit-test source is cached, query the frame
(`frame.getHitTestResults(hitTestSource)`): a non-empty result list makes the
reticle visible with its matrix set from the first result's pose; an empty
one hides the reticle.  With no cached source the reticle is untouched. -/
def queryPhase (st : AppState) (session : Nat) (hits : List Pose) :
    AppState × List LogEntry :=
  match st.hitTestSource with
  | some src =>
      match hits with
      | hit :: _ =>
          ({ st with reticleVisible := true, reticleMatrix := hit },
           [LogEntry.query session src.session hits])
      | [] =>
          ({ st with reticleVisible := false },
           [LogEntry.query session src.session hits])
  | none => (st, [])

/-- The XR part of `render` (main.js 378-406), for a call that has a `frame`:
the fire-once latch block followed by the hit-test query block. -/
def renderFrame (st : AppState) (session : Nat) (hits : List Pose) :
    AppState × List LogEntry :=
  let p := latchPhase st session
  let q := queryPhase p.1 session hits
  (q.1, p.2 ++ q.2)

/-- Delivery of the asynchronous acquisition result: the continuation
`hitTestSource = source` runs, unconditionally caching the source (which
belongs to the session that issued the request).  A resolution with no matching
in-flight request is a no-op. -/
def resolveRequest (st : AppState) (session : Nat) : AppState :=
  if session ∈ st.pendingRequests then
    { st with pendingRequests := st.pendingRequests.erase session,
              hitTestSource := some ⟨session⟩ }
  else st

/-- The session `end` listener (main.js 389-392): if it was registered on the
ending session, clear the latch and null the cached source.  Pending promise
continuations are NOT cancelled (there is no cancellation in the source). -/
def onSessionEnd (st : AppState) (session : Nat) : AppState :=
  if session ∈ st.endHandlers then
    { st with hitTestSourceRequested := false, hitTestSource := none }
  else st

/-- One step of the event-driven execution. -/
def step (st : AppState) : Event → AppState × List LogEntry
  | .frame s hits => renderFrame st s hits
  | .resolveHitTestSource s => (resolveRequest st s, [])
  | .sessionEnd s => (onSessionEnd st s, [])
  | .select => (onSelect st, [])
  | .touchstart ts => (onTouchStart st ts, [])
  | .touchmove ts => (onTouchMove st ts, [])

/-- Run a list of events from a state, collecting the emitted log. -/
def runFrom (st : AppState) : List Event → AppState × List LogEntry
  | [] => (st, [])
  | e :: es =>
      let p := step st e
      let q := runFrom p.1 es
      (q.1, p.2 ++ q.2)

/-- The module state at page load: no car model yet, reticle hidden with an
identity matrix, no source, latch false, zeroed gesture closure variables. -/
def initState : AppState where
  carModel := none
  reticleVisible := false
  reticleMatrix := ⟨⟨0, 0, 0⟩, ⟨0, 0, 0, 1⟩⟩
  hitTestSource := none
  hitTestSourceRequested := false
  pendingRequests := []
  endHandlers := []
  initialDistance := 0
  initialScale := ⟨0, 0, 0⟩
  previousTouchX := 0

/-- Whether a log entry records a hit-test query. -/
def LogEntry.isQuery : LogEntry → Bool
  | .query _ _ _ => true
  | _ => false

/-- The most recent hit-test query in a log, if any. -/
def lastQuery (log : List LogEntry) : Option LogEntry :=
  (log.filter LogEntry.isQuery).getLast?

/-- The relation C1 asserts between the reticle state and the action log: the
reticle is visible iff the most recent hit-test query (the most recent frame
processed while a source existed) returned a non-empty result list, and
whenever the reticle is visible its matrix holds the pose of that query's
first (index 0) result. -/
def reticleMatchesLog (st : AppState) (log : List LogEntry) : Prop :=
  (st.reticleVisible = true
    ↔ ∃ fs ss p rest, lastQuery log = some (.query fs ss (p :: rest)))
  ∧ ∀ fs ss p rest, lastQuery log = some (.query fs ss (p :: rest)) →
      st.reticleMatrix = p

/-- Whether a single log entry respects session locality: a query made during
a frame of one session must use a source obtained from that same session. -/
def LogEntry.sameSession : LogEntry → Bool
  | .query fs ss _ => fs == ss
  | .request _ => true

/-- Every hit-test query in the log used a source of the querying frame's own
session. -/
def logSessionLocal (log : List LogEntry) : Bool :=
  log.all LogEntry.sameSession

/-- The number of acquisition requests recorded in a log. -/
def countRequests (log : List LogEntry) : Nat :=
  (log.filter fun e => match e with | .request _ => true | _ => false).length

/-- Whether an event is a session `end` event. -/
def Event.isSessionEnd : Event → Bool
  | .sessionEnd _ => true
  | _ => false

/-- Whether an event is an XR frame. -/
def Event.isFrame : Event → Bool
  | .frame _ _ => true
  | _ => false

/-- Trace side condition: every asynchronous resolution is delivered before its
session's `end` event ( `ended` accumulates the sessions already ended). -/
def noLateResolve : List Nat → List Event → Bool
  | _, [] => true
  | ended, e :: es =>
      (match e with
       | .resolveHitTestSource s => decide (s ∉ ended)
       | _ => true)
      && noLateResolve
          (match e with | .sessionEnd s => s :: ended | _ => ended) es

/-- Trace side condition: AR sessions are serial — a frame of one session may
only occur after every previously-seen distinct session has ended (`seen`
accumulates sessions with frames, `ended` the ended ones). -/
def framesSerial : List Nat → List Nat → List Event → Bool
  | _, _, [] => true
  | seen, ended, e :: es =>
      match e with
      | .frame s _ =>
          (seen.all fun s0 => s0 == s || decide (s0 ∈ ended))
          && framesSerial (s :: seen) ended es
      | .sessionEnd s => framesSerial seen (s :: ended) es
      | _ => framesSerial seen ended es

/-- Invariant tying the cached source and the in-flight requests to the
trace-checker accumulators (`seen`: sessions that have had frames; `ended`:
sessions whose `end` event has fired): a cached source belongs to a session
that has run a frame, has not ended, and has the `end` listener registered;
every in-flight request likewise. -/
def SourceOk (st : AppState) (seen ended : List Nat) : Prop :=
  (∀ src, st.hitTestSource = some src →
      src.session ∉ ended ∧ src.session ∈ st.endHandlers ∧ src.session ∈ seen)
  ∧ ∀ s ∈ st.pendingRequests, s ∈ st.endHandlers ∧ s ∈ seen

/-- A sequence of one-finger `touchmove` events with successive horizontal
deltas `ds`, starting from previous coordinate `x` (vertical coordinate `yc`
is irrelevant to the handler). -/
def rotMoves (yc : ℚ) : ℚ → List ℚ → List Event
  | _, [] => []
  | x, d :: ds => Event.touchmove [⟨x + d, yc⟩] :: rotMoves yc (x + d) ds

/-!
IEEE-754 extended-value model for the pinch-scale computation.

The exact-rational model above cannot represent the non-finite values
(NaN, ±Infinity) a JS number can hold (for instance an Infinity component of
`carModel.scale` left by an earlier overflow).  `FVal` adds those values on
top of ℚ, with multiplication and division following IEEE-754 on the cases
the pinch path exercises (negative zero is not distinguished).  The relevant
`touchmove` lines (main.js 249-256) are re-embedded over `FVal`, taking the
already-computed current inter-finger distance as input. -/

/-- A JS number as the pinch path sees it: a finite value (idealized as an
exact rational), one of the two infinities, or NaN. -/
inductive FVal where
  | fin (q : ℚ)
  | pinf
  | ninf
  | nan
deriving DecidableEq, Repr

/-- IEEE-754 multiplication on `FVal` (negative zero not distinguished). -/
def FVal.mul : FVal → FVal → FVal
  | nan, _ => nan
  | _, nan => nan
  | fin a, fin b => fin (a * b)
  | fin a, pinf => if a > 0 then pinf else if a < 0 then ninf else nan
  | fin a, ninf => if a > 0 then ninf else if a < 0 then pinf else nan
  | pinf, fin b => if b > 0 then pinf else if b < 0 then ninf else nan
  | ninf, fin b => if b > 0 then ninf else if b < 0 then pinf else nan
  | pinf, pinf => pinf
  | pinf, ninf => ninf
  | ninf, pinf => ninf
  | ninf, ninf => pinf

/-- IEEE-754 division on `FVal` (negative zero not distinguished). -/
def FVal.div : FVal → FVal → FVal
  | nan, _ => nan
  | _, nan => nan
  | fin a, fin b =>
      if b = 0 then (if a = 0 then nan else if a > 0 then pinf else ninf)
      else fin (a / b)
  | fin _, pinf => fin 0
  | fin _, ninf => fin 0
  | pinf, fin b => if b < 0 then ninf else pinf
  | ninf, fin b => if b < 0 then pinf else ninf
  | pinf, pinf => nan
  | pinf, ninf => nan
  | ninf, pinf => nan
  | ninf, ninf => nan

/-- The JS comparison `x > 0` on an `FVal` (false for NaN). -/
def FVal.gtZero : FVal → Bool
  | fin a => decide (a > 0)
  | pinf => true
  | ninf => false
  | nan => false

/-- `Number.isFinite`. -/
def FVal.isFinite : FVal → Bool
  | fin _ => true
  | _ => false

/-- A `THREE.Vector3` whose components are `FVal`s. -/
structure FVec3 where
  x : FVal
  y : FVal
  z : FVal
deriving DecidableEq, Repr

/-- Componentwise `multiplyScalar` over `FVal`s. -/
def FVec3.multiplyScalar (v : FVec3) (s : FVal) : FVec3 :=
  ⟨v.x.mul s, v.y.mul s, v.z.mul s⟩

/-- Whether every component is finite. -/
def FVec3.allFinite (v : FVec3) : Bool :=
  v.x.isFinite && v.y.isFinite && v.z.isFinite

/-- The uniform scale vector `(1, 1, 1)` — the default the claim says a
non-finite computed scale falls back to. -/
def FVec3.ones : FVec3 := ⟨.fin 1, .fin 1, .fin 1⟩

/-- The gesture state the pinch branch of `touchmove` reads and writes, over
`FVal`s: the baseline distance, the baseline scale snapshot and the car's
current scale. -/
structure FPinchState where
  initialDistance : FVal
  initialScale : FVec3
  scale : FVec3
deriving DecidableEq, Repr

/-- The computation of the two-finger branch of `touchmove` (main.js 249-256)
over `FVal`s, with the current inter-finger distance (`Math.sqrt` of a sum of
squares, hence non-negative or NaN) taken as input:
`scaleFactor = currentDistance / initialDistance`;
`newScale = initialScale.clone().multiplyScalar(scaleFactor)`. -/
def pinchComputeScale (initialDistance : FVal) (initialScale : FVec3)
    (currentDistance : FVal) : FVec3 :=
  let scaleFactor := currentDistance.div initialDistance
  initialScale.multiplyScalar scaleFactor

/-- The two-finger branch of `touchmove` over `FVal`s: under the source's
`initialDistance > 0` guard, `carModel.scale.copy(newScale)` stores the
computed scale verbatim — the source has no finiteness check. -/
def touchmovePinchF (st : FPinchState) (currentDistance : FVal) : FPinchState :=
  if st.initialDistance.gtZero then
    { st with scale := pinchComputeScale st.initialDistance st.initialScale currentDistance }
  else st

/-- Example car model used by concrete witnesses: the loader sets
`carModel.scale.setScalar(10)` (main.js 104). -/
def carA : CarModel :=
  ⟨⟨0, 0, 0⟩, ⟨0, 0, 0, 1⟩, ⟨0, 0, 0⟩, ⟨10, 10, 10⟩⟩

/-- Example pose used by concrete witnesses. -/
def poseA : Pose := ⟨⟨1, 2, 3⟩, ⟨0, 0, 0, 1⟩⟩

/-- Concrete state used by witnesses: reticle visible at `poseA`, car model
loaded. -/
def stVisible : AppState :=
  { initState with reticleVisible := true, reticleMatrix := poseA, carModel := some carA }

/-- Concrete state used by witnesses: car model loaded, reticle hidden. -/
def stLoaded : AppState :=
  { initState with carModel := some carA }

/-- Concrete state used by witnesses: car model loaded and a pinch baseline
(distance 5, scale snapshot (10, 10, 10)) already captured. -/
def stPinch : AppState :=
  { initState with carModel := some carA, initialDistance := 5, initialScale := ⟨10, 10, 10⟩ }

/-- Concrete state used by witnesses: a hit-test source of session 1 cached
and the latch set. -/
def stSourced : AppState :=
  { initState with hitTestSource := some ⟨1⟩, hitTestSourceRequested := true }

/-- Concrete state used by witnesses: like `stSourced` but with the session-1
`end` listener registered. -/
def stSourcedHandler : AppState :=
  { initState with hitTestSource := some ⟨1⟩, hitTestSourceRequested := true,
                   endHandlers := [1] }

/-!
Helper lemmas.
-/

/-- Evaluation of `touchDistance` on inputs whose squared distance is the
perfect square of a natural number. -/
theorem touchDistance_eval (t0 t1 : Touch) (n r : ℕ)
    (h : (t0.pageX - t1.pageX) * (t0.pageX - t1.pageX)
        + (t0.pageY - t1.pageY) * (t0.pageY - t1.pageY) = (n : ℚ))
    (hr : isqrt n = r) :
    touchDistance t0 t1 = (r : ℚ) := by
  unfold touchDistance
  rw [h]
  unfold Math.sqrt
  rw [Rat.num_natCast, Rat.den_natCast, Int.toNat_natCast, hr,
    show isqrt 1 = 1 from rfl]
  norm_num

/-!
Claim theorems.
-/

/-- C2: whenever the reticle is visible and a placeable object exists, a
select action sets the object's position and orientation exactly to the
reticle pose, and a second select with the same (unchanged) reticle pose
leaves the object's pose unchanged: `onSelect` is idempotent. -/
theorem c2_select_commits_pose (st : AppState) (car : CarModel)
    (hvis : st.reticleVisible = true) (hcar : st.carModel = some car) :
    (onSelect st).carModel = some { car with
        position := st.reticleMatrix.position,
        quaternion := st.reticleMatrix.orientation }
    ∧ onSelect (onSelect st) = onSelect st := by
  unfold onSelect
  rw [hcar, hvis]
  simp

/-- Witness for C2 at a concrete state. -/
theorem c2_select_commits_pose_witness :
    (onSelect stVisible).carModel
      = some { carA with position := poseA.position, quaternion := poseA.orientation }
    ∧ onSelect (onSelect stVisible) = onSelect stVisible :=
  c2_select_commits_pose stVisible carA rfl rfl

/-- C3: whenever the reticle is invisible, a select action leaves the whole
program state (in particular the placeable object's position and orientation)
unchanged: it is a silent no-op. -/
theorem c3_select_noop_when_invisible (st : AppState)
    (hvis : st.reticleVisible = false) :
    onSelect st = st := by
  unfold onSelect
  rw [hvis]
  cases st.carModel <;> simp

/-- Witness for C3 at a concrete state. -/
theorem c3_select_noop_when_invisible_witness :
    onSelect stLoaded = stLoaded :=
  c3_select_noop_when_invisible stLoaded rfl

/-- C10: a select action never modifies the placeable object's scale, in any
state. -/
theorem c10_select_preserves_scale (st : AppState) :
    ((onSelect st).carModel).map CarModel.scale = (st.carModel).map CarModel.scale := by
  unfold onSelect
  cases hc : st.carModel <;> cases hv : st.reticleVisible <;> simp [hc, hv]

/-- C4: the two-finger `touchstart` captures the baseline inter-finger
distance D0 and the baseline scale S0; a two-finger `touchmove` with current
distance D1 (and positive stored baseline) sets the object's scale to S0
multiplied elementwise by the scalar D1 / D0; with a zero stored baseline the
move leaves the state (in particular the scale) unchanged — no division is
performed; and the composition of capture and move realizes
scale = S0 × (D1 / D0). -/
theorem c4_pinch_scale :
    (∀ st car t0 t1, st.carModel = some car →
        onTouchStart st [t0, t1]
          = { st with initialDistance := touchDistance t0 t1, initialScale := car.scale })
    ∧ (∀ st car u0 u1, st.carModel = some car → st.initialDistance > 0 →
        onTouchMove st [u0, u1]
          = { st with carModel := some { car with scale := st.initialScale.multiplyScalar (touchDistance u0 u1 / st.initialDistance) } })
    ∧ (∀ st u0 u1, st.initialDistance = 0 →
        onTouchMove st [u0, u1] = st)
    ∧ (∀ st car t0 t1 u0 u1, st.carModel = some car → touchDistance t0 t1 > 0 →
        (onTouchMove (onTouchStart st [t0, t1]) [u0, u1]).carModel
          = some { car with scale := car.scale.multiplyScalar (touchDistance u0 u1 / touchDistance t0 t1) }) := by
  refine ⟨?_, ?_, ?_, ?_⟩
  · intro st car t0 t1 hcar
    unfold onTouchStart
    rw [hcar]
  · intro st car u0 u1 hcar hpos
    unfold onTouchMove
    rw [hcar]
    simp [hpos]
  · intro st u0 u1 hzero
    unfold onTouchMove
    cases hc : st.carModel
    · rfl
    · simp [hzero]
  · intro st car t0 t1 u0 u1 hcar hpos
    unfold onTouchStart onTouchMove
    rw [hcar]
    simp [hcar, hpos]

/-- Witness for C4 at concrete inputs (fingers at distance 5, then at
distance 10). -/
theorem c4_pinch_scale_witness :
    onTouchStart stLoaded [⟨0, 0⟩, ⟨3, 4⟩]
      = { stLoaded with initialDistance := touchDistance ⟨0, 0⟩ ⟨3, 4⟩, initialScale := carA.scale }
    ∧ onTouchMove stPinch [⟨0, 0⟩, ⟨6, 8⟩]
      = { stPinch with carModel := some { carA with scale := Vec3.multiplyScalar ⟨10, 10, 10⟩ (touchDistance ⟨0, 0⟩ ⟨6, 8⟩ / 5) } }
    ∧ onTouchMove stLoaded [⟨0, 0⟩, ⟨6, 8⟩] = stLoaded
    ∧ (onTouchMove (onTouchStart stLoaded [⟨0, 0⟩, ⟨3, 4⟩]) [⟨0, 0⟩, ⟨6, 8⟩]).carModel
      = some { carA with scale := carA.scale.multiplyScalar (touchDistance ⟨0, 0⟩ ⟨6, 8⟩ / touchDistance ⟨0, 0⟩ ⟨3, 4⟩) } :=
  ⟨c4_pinch_scale.1 stLoaded carA ⟨0, 0⟩ ⟨3, 4⟩ rfl,
   c4_pinch_scale.2.1 stPinch carA ⟨0, 0⟩ ⟨6, 8⟩ rfl (by norm_num [stPinch]),
   c4_pinch_scale.2.2.1 stLoaded ⟨0, 0⟩ ⟨6, 8⟩ rfl,
   c4_pinch_scale.2.2.2 stLoaded carA ⟨0, 0⟩ ⟨3, 4⟩ ⟨0, 0⟩ ⟨6, 8⟩ rfl
     (by rw [touchDistance_eval ⟨0, 0⟩ ⟨3, 4⟩ 25 5 (by norm_num) (by decide)]; norm_num)⟩

/-- C7 counterexample: a two-finger move whose computed new scale is
non-finite (baseline scale snapshot Infinity, baseline distance 1, current
distance 2, so the computed scale is Infinity componentwise, and the source's
`initialDistance > 0` guard passes) does NOT set the object's scale to the
default 1.0: the non-finite value is stored verbatim.  This refutes the
claimed fallback — no such fallback exists in main.js 249-257 (nor in the
part_000 variant). -/
theorem c7_nonfinite_fallback_counterexample :
    FVal.gtZero (.fin 1) = true
    ∧ (pinchComputeScale (.fin 1) ⟨.pinf, .pinf, .pinf⟩ (.fin 2)).allFinite = false
    ∧ (touchmovePinchF ⟨.fin 1, ⟨.pinf, .pinf, .pinf⟩, ⟨.fin 10, .fin 10, .fin 10⟩⟩ (.fin 2)).scale ≠ FVec3.ones
    ∧ (touchmovePinchF ⟨.fin 1, ⟨.pinf, .pinf, .pinf⟩, ⟨.fin 10, .fin 10, .fin 10⟩⟩ (.fin 2)).scale = ⟨.pinf, .pinf, .pinf⟩ := by
  refine ⟨?_, ?_, ?_, ?_⟩ <;>
    · norm_num [touchmovePinchF, pinchComputeScale, FVec3.multiplyScalar, FVec3.allFinite,
        FVec3.ones, FVal.div, FVal.mul, FVal.gtZero, FVal.isFinite]
      try decide

/-- C7 as amended: a scale-gesture move event whose computed new scale is
non-finite stores that non-finite computed value verbatim (the source has no
finiteness check and no fallback to 1.0). -/
theorem c7_nonfinite_scale_copied_verbatim (st : FPinchState) (d : FVal)
    (hguard : st.initialDistance.gtZero = true)
    (_hnf : (pinchComputeScale st.initialDistance st.initialScale d).allFinite = false) :
    (touchmovePinchF st d).scale
      = pinchComputeScale st.initialDistance st.initialScale d := by
  unfold touchmovePinchF
  rw [hguard]
  simp

/-- Witness for the amended C7 at the concrete non-finite input. -/
theorem c7_nonfinite_scale_copied_verbatim_witness :
    (touchmovePinchF ⟨.fin 1, ⟨.nan, .fin 2, .fin 3⟩, ⟨.fin 10, .fin 10, .fin 10⟩⟩ (.fin 4)).scale
      = pinchComputeScale (.fin 1) ⟨.nan, .fin 2, .fin 3⟩ (.fin 4) :=
  c7_nonfinite_scale_copied_verbatim ⟨.fin 1, ⟨.nan, .fin 2, .fin 3⟩, ⟨.fin 10, .fin 10, .fin 10⟩⟩ (.fin 4)
    (by norm_num [FVal.gtZero])
    (by norm_num [pinchComputeScale, FVec3.multiplyScalar, FVec3.allFinite, FVal.div, FVal.mul, FVal.isFinite])

/-- C9 counterexample: after a one-finger start at x = 3, a transition to two
fingers, and a two-finger move during which the first finger travels to x = 7,
dropping back to one finger (no touchend handler exists, so no event fires)
leaves `previousTouchX` at the value 3 captured BEFORE the two-finger phase;
the next single-finger move at x = 8 then applies a yaw delta of
(8 - 3) × 0.005 — the old gesture's baseline IS used by the new gesture's
math, instead of a re-initialized baseline (which would give (8 - 7) × 0.005). -/
theorem c9_stale_rotation_baseline_counterexample :
    (runFrom stLoaded [Event.touchstart [⟨3, 0⟩]]).1.previousTouchX = 3
    ∧ (runFrom stLoaded [Event.touchstart [⟨3, 0⟩], Event.touchstart [⟨3, 0⟩, ⟨13, 0⟩], Event.touchmove [⟨7, 0⟩, ⟨17, 0⟩]]).1.previousTouchX = 3
    ∧ ((runFrom stLoaded [Event.touchstart [⟨3, 0⟩], Event.touchstart [⟨3, 0⟩, ⟨13, 0⟩], Event.touchmove [⟨7, 0⟩, ⟨17, 0⟩], Event.touchmove [⟨8, 0⟩]]).1.carModel).map (fun c => c.rotation.y)
      = some ((8 - 3) * 0.005) := by
  have hd1 : touchDistance ⟨3, 0⟩ ⟨13, 0⟩ = (10 : ℚ) :=
    touchDistance_eval _ _ 100 10 (by norm_num) (by decide)
  have hd2 : touchDistance ⟨7, 0⟩ ⟨17, 0⟩ = (10 : ℚ) :=
    touchDistance_eval _ _ 100 10 (by norm_num) (by decide)
  refine ⟨?_, ?_, ?_⟩ <;>
    norm_num [runFrom, step, onTouchStart, onTouchMove, stLoaded, initState, carA, hd1, hd2]

/-- C9 as amended: a one-to-two finger transition re-initializes the
two-finger baseline (the second finger's `touchstart` recaptures distance and
scale before any two-finger move, and in particular before any move applies
the pinch update); but a two-to-one transition does NOT re-initialize the
one-finger baseline: no touch event writes `previousTouchX` during a
two-finger phase (there is no `touchend` handler), so the first subsequent
single-finger move applies its yaw update against whatever stale
`previousTouchX` the state holds. -/
theorem c9_gesture_baseline_transitions :
    (∀ st car t0 t1, st.carModel = some car →
        onTouchStart st [t0, t1] = { st with initialDistance := touchDistance t0 t1, initialScale := car.scale })
    ∧ (∀ st t0 t1, (onTouchMove st [t0, t1]).previousTouchX = st.previousTouchX
        ∧ (onTouchStart st [t0, t1]).previousTouchX = st.previousTouchX)
    ∧ (∀ st car t, st.carModel = some car →
        onTouchMove st [t] = { st with previousTouchX := t.pageX, carModel := some { car with rotation := { car.rotation with y := car.rotation.y + (t.pageX - st.previousTouchX) * 0.005 } } }) := by
  refine ⟨?_, ?_, ?_⟩
  · intro st car t0 t1 hcar
    unfold onTouchStart
    rw [hcar]
  · intro st t0 t1
    constructor
    · unfold onTouchMove
      cases hc : st.carModel
      · rfl
      · by_cases hp : st.initialDistance > 0 <;> simp [hp]
    · unfold onTouchStart
      cases hc : st.carModel <;> rfl
  · intro st car t hcar
    unfold onTouchMove
    rw [hcar]

/-- Witness for the amended C9 at concrete inputs. -/
theorem c9_gesture_baseline_transitions_witness :
    onTouchStart stLoaded [⟨3, 0⟩, ⟨13, 0⟩]
      = { stLoaded with initialDistance := touchDistance ⟨3, 0⟩ ⟨13, 0⟩, initialScale := carA.scale }
    ∧ ((onTouchMove stPinch [⟨7, 0⟩, ⟨17, 0⟩]).previousTouchX = stPinch.previousTouchX
        ∧ (onTouchStart stPinch [⟨7, 0⟩, ⟨17, 0⟩]).previousTouchX = stPinch.previousTouchX)
    ∧ onTouchMove stLoaded [⟨8, 0⟩]
      = { stLoaded with previousTouchX := 8, carModel := some { carA with rotation := { carA.rotation with y := carA.rotation.y + (8 - stLoaded.previousTouchX) * 0.005 } } } :=
  ⟨c9_gesture_baseline_transitions.1 stLoaded carA ⟨3, 0⟩ ⟨13, 0⟩ rfl,
   c9_gesture_baseline_transitions.2.1 stPinch ⟨7, 0⟩ ⟨17, 0⟩,
   c9_gesture_baseline_transitions.2.2 stLoaded carA ⟨8, 0⟩ rfl⟩

/-- C6: over any sequence of single-finger moves with horizontal deltas `ds`
(and no intervening touch-count change), the object's yaw increases by exactly
`ds.sum × 0.005` radians — each move adds `deltaX * 0.005` and updates the
stored previous coordinate — while pitch, roll, and every other state
component are unchanged (the full-state equality keeps every other field of
the state and of the car model fixed). -/
theorem c6_rotation_accumulates (st : AppState) (car : CarModel) (x0 yc : ℚ) (ds : List ℚ)
    (hcar : st.carModel = some car) (hx : st.previousTouchX = x0) :
    (runFrom st (rotMoves yc x0 ds)).1
      = { st with previousTouchX := x0 + ds.sum, carModel := some { car with rotation := { car.rotation with y := car.rotation.y + ds.sum * 0.005 } } } := by
  induction ds generalizing st car x0 with
  | nil =>
    obtain ⟨cm, rv, rm, hs, hr, pr, eh, idist, iscale, ptx⟩ := st
    obtain ⟨cp, cq, cr, cs⟩ := car
    obtain ⟨crx, cry, crz⟩ := cr
    simp only at hcar hx
    subst hcar hx
    simp [runFrom, rotMoves]
  | cons d ds ih =>
    have hstep : (step st (Event.touchmove [⟨x0 + d, yc⟩])).1
        = { st with previousTouchX := x0 + d, carModel := some { car with rotation := { car.rotation with y := car.rotation.y + d * 0.005 } } } := by
      simp [step, onTouchMove, hcar, hx]
    rw [rotMoves]
    show (runFrom (step st (Event.touchmove [⟨x0 + d, yc⟩])).1 (rotMoves yc (x0 + d) ds)).1 = _
    rw [hstep,
      ih { st with previousTouchX := x0 + d, carModel := some { car with rotation := { car.rotation with y := car.rotation.y + d * 0.005 } } }
        { car with rotation := { car.rotation with y := car.rotation.y + d * 0.005 } } (x0 + d) rfl rfl]
    simp
    constructor
    · ring
    · ring

/-- Witness for C6: two single-finger moves with deltas 10 and -4 from
previous coordinate 0. -/
theorem c6_rotation_accumulates_witness :
    (runFrom stLoaded (rotMoves 0 0 [10, -4])).1
      = { stLoaded with previousTouchX := 0 + ([10, -4] : List ℚ).sum, carModel := some { carA with rotation := { carA.rotation with y := carA.rotation.y + ([10, -4] : List ℚ).sum * 0.005 } } } :=
  c6_rotation_accumulates stLoaded carA 0 0 [10, -4] rfl rfl

/-- The request count of a concatenated log is the sum of the parts. -/
theorem countRequests_append (l1 l2 : List LogEntry) :
    countRequests (l1 ++ l2) = countRequests l1 + countRequests l2 := by
  unfold countRequests
  rw [List.filter_append, List.length_append]

/-- While the latch is set, a step on any non-end event keeps it set and
issues no acquisition request. -/
theorem step_latch_no_request (st : AppState) (e : Event) (he : e.isSessionEnd = false)
    (hlatch : st.hitTestSourceRequested = true) :
    (step st e).1.hitTestSourceRequested = true ∧ countRequests (step st e).2 = 0 := by
  cases e with
  | frame s hits =>
      have hl : latchPhase st s = (st, []) := by simp [latchPhase, hlatch]
      simp only [step, renderFrame, hl]
      cases hsrc : st.hitTestSource with
      | none => simp [queryPhase, hsrc, countRequests, hlatch]
      | some src => cases hits <;> simp [queryPhase, hsrc, countRequests, hlatch]
  | resolveHitTestSource s =>
      simp only [step, resolveRequest]
      split <;> simp [countRequests, hlatch]
  | sessionEnd s => simp [Event.isSessionEnd] at he
  | select =>
      simp only [step, onSelect]
      cases hc : st.carModel with
      | none => simp [countRequests, hlatch]
      | some car => by_cases hv : st.reticleVisible <;> simp [countRequests, hlatch, hv]
  | touchstart ts =>
      simp only [step, onTouchStart]
      rcases ts with _ | ⟨t0, _ | ⟨t1, _ | _⟩⟩ <;> cases hc : st.carModel <;>
        simp [countRequests, hlatch]
  | touchmove ts =>
      rcases ts with _ | ⟨t0, _ | ⟨t1, _ | _⟩⟩ <;> cases hc : st.carModel <;>
        by_cases hp : st.initialDistance > 0 <;>
        simp [step, onTouchMove, hc, hp, countRequests, hlatch]

/-- While the latch is set, an end-free run keeps it set and issues no
acquisition requests at all. -/
theorem runFrom_latched_no_requests (es : List Event) :
    ∀ st, (∀ e ∈ es, e.isSessionEnd = false) → st.hitTestSourceRequested = true →
      (runFrom st es).1.hitTestSourceRequested = true ∧ countRequests (runFrom st es).2 = 0 := by
  induction es with
  | nil => intro st _ h; exact ⟨h, rfl⟩
  | cons e es ih =>
    intro st hne hlatch
    have h1 := step_latch_no_request st e (hne e (List.mem_cons_self e es)) hlatch
    have h2 := ih (step st e).1 (fun e2 he2 => hne e2 (List.mem_cons_of_mem e he2)) h1.1
    unfold runFrom
    refine ⟨h2.1, ?_⟩
    rw [countRequests_append, h1.2, h2.2]

/-- A step on a non-frame, non-end event preserves the latch and emits no log. -/
theorem step_preserves_latch (st : AppState) (e : Event)
    (hn : e.isSessionEnd = false) (hf : e.isFrame = false) :
    (step st e).1.hitTestSourceRequested = st.hitTestSourceRequested ∧ (step st e).2 = [] := by
  cases e with
  | frame s hits => simp [Event.isFrame] at hf
  | resolveHitTestSource s =>
      simp only [step, resolveRequest]
      split <;> simp
  | sessionEnd s => simp [Event.isSessionEnd] at hn
  | select =>
      simp only [step, onSelect]
      cases hc : st.carModel <;> by_cases hv : st.reticleVisible <;> simp [hc, hv]
  | touchstart ts =>
      simp only [step, onTouchStart]
      rcases ts with _ | ⟨t0, _ | ⟨t1, _ | _⟩⟩ <;> cases hc : st.carModel <;> simp [hc]
  | touchmove ts =>
      rcases ts with _ | ⟨t0, _ | ⟨t1, _ | _⟩⟩ <;> cases hc : st.carModel <;>
        by_cases hp : st.initialDistance > 0 <;>
        simp [step, onTouchMove, hc, hp]

/-- C8: over any stretch of execution containing no session-end event (in
particular over all the frames of a single AR session), at most one
reference-space / hit-test-source acquisition request is issued, and none at
all once the latch is already set — even while the request's result is still
pending (a pending `resolveHitTestSource` does not reset the latch). -/
theorem c8_request_latch (st : AppState) (es : List Event)
    (hne : ∀ e ∈ es, e.isSessionEnd = false) :
    countRequests (runFrom st es).2 ≤ (if st.hitTestSourceRequested then 0 else 1) := by
  induction es generalizing st with
  | nil =>
      simp [runFrom, countRequests]
  | cons e es ih =>
    have hee : e.isSessionEnd = false := hne e (List.mem_cons_self e es)
    have hes : ∀ e2 ∈ es, e2.isSessionEnd = false :=
      fun e2 he2 => hne e2 (List.mem_cons_of_mem e he2)
    by_cases hlatch : st.hitTestSourceRequested
    · have h := runFrom_latched_no_requests (e :: es) st hne hlatch
      rw [if_pos hlatch, h.2]
    · rw [if_neg hlatch]
      have hb : st.hitTestSourceRequested = false := by
        simpa using hlatch
      show countRequests ((step st e).2 ++ (runFrom (step st e).1 es).2) ≤ 1
      rw [countRequests_append]
      by_cases hf : e.isFrame = true
      · cases e with
        | frame s hits =>
            have h1 : (step st (Event.frame s hits)).1.hitTestSourceRequested = true
                ∧ countRequests (step st (Event.frame s hits)).2 = 1 := by
              have hl : latchPhase st s
                  = ({ st with pendingRequests := st.pendingRequests ++ [s], endHandlers := s :: st.endHandlers, hitTestSourceRequested := true }, [LogEntry.request s]) := by
                simp [latchPhase, hb]
              simp only [step, renderFrame, hl]
              cases hsrc : st.hitTestSource <;> cases hits <;> simp [queryPhase, hsrc, countRequests]
            rw [h1.2, (runFrom_latched_no_requests es _ hes h1.1).2]
        | resolveHitTestSource s => simp [Event.isFrame] at hf
        | sessionEnd s => simp [Event.isFrame] at hf
        | select => simp [Event.isFrame] at hf
        | touchstart ts => simp [Event.isFrame] at hf
        | touchmove ts => simp [Event.isFrame] at hf
      · have hb2 : e.isFrame = false := by simpa using hf
        have hp := step_preserves_latch st e hee hb2
        have h2 := ih (step st e).1 hes
        rw [hp.1, if_neg hlatch] at h2
        rw [hp.2]
        simpa [countRequests] using h2

/-- Witness for C8: a session whose frames run before and after the pending
resolution; exactly one request is issued. -/
theorem c8_request_latch_witness :
    (∀ e ∈ ([Event.frame 1 [], Event.frame 1 [], Event.resolveHitTestSource 1,
        Event.frame 1 [poseA]] : List Event), e.isSessionEnd = false)
    ∧ countRequests (runFrom initState [Event.frame 1 [], Event.frame 1 [],
        Event.resolveHitTestSource 1, Event.frame 1 [poseA]]).2
      ≤ (if initState.hitTestSourceRequested then 0 else 1) :=
  ⟨by decide, c8_request_latch initState _ (by decide)⟩

/-- A request entry appended to a log does not change its most recent query. -/
theorem lastQuery_append_request (log : List LogEntry) (s : Nat) :
    lastQuery (log ++ [.request s]) = lastQuery log := by
  unfold lastQuery
  rw [List.filter_append]
  simp [LogEntry.isQuery]

/-- A query entry appended to a log becomes its most recent query. -/
theorem lastQuery_concat_query (log : List LogEntry) (fs ss : Nat) (hits : List Pose) :
    lastQuery (log ++ [.query fs ss hits]) = some (.query fs ss hits) := by
  unfold lastQuery
  rw [List.filter_append]
  simp [LogEntry.isQuery]

/-- The latch block preserves the C1 relation: it touches neither the reticle
nor the query log. -/
theorem latchPhase_reticle (st : AppState) (s : Nat) (log : List LogEntry)
    (h : reticleMatchesLog st log) :
    reticleMatchesLog (latchPhase st s).1 (log ++ (latchPhase st s).2) := by
  unfold latchPhase
  split
  · constructor
    · simpa [lastQuery_append_request] using h.1
    · intro fs ss p rest hq
      rw [lastQuery_append_request] at hq
      exact h.2 fs ss p rest hq
  · simpa using h

/-- The query block establishes or preserves the C1 relation: with a cached
source it queries and updates the reticle from the result list; without one it
leaves both the reticle and the query log alone. -/
theorem queryPhase_reticle (st : AppState) (s : Nat) (hits : List Pose) (log : List LogEntry)
    (h : reticleMatchesLog st log) :
    reticleMatchesLog (queryPhase st s hits).1 (log ++ (queryPhase st s hits).2) := by
  unfold queryPhase
  cases hsrc : st.hitTestSource with
  | none => simpa using h
  | some src =>
    cases hits with
    | nil =>
        constructor
        · simp [lastQuery_concat_query]
        · intro fs ss p rest hq
          rw [lastQuery_concat_query] at hq
          simp at hq
    | cons p rest =>
        constructor
        · simp [lastQuery_concat_query]
        · intro fs' ss' p' rest' hq
          rw [lastQuery_concat_query] at hq
          simp only [Option.some.injEq, LogEntry.query.injEq, List.cons.injEq] at hq
          simp [hq.2.2.1]

/-- Every event preserves the C1 relation between reticle state and query
log. -/
theorem step_reticle (st : AppState) (e : Event) (log : List LogEntry)
    (h : reticleMatchesLog st log) :
    reticleMatchesLog (step st e).1 (log ++ (step st e).2) := by
  cases e with
  | frame s hits =>
      show reticleMatchesLog (queryPhase (latchPhase st s).1 s hits).1
        (log ++ ((latchPhase st s).2 ++ (queryPhase (latchPhase st s).1 s hits).2))
      rw [← List.append_assoc]
      exact queryPhase_reticle _ s hits _ (latchPhase_reticle st s log h)
  | resolveHitTestSource s =>
      simp only [step, resolveRequest]
      split <;> simpa [reticleMatchesLog] using h
  | sessionEnd s =>
      simp only [step, onSessionEnd]
      split <;> simpa [reticleMatchesLog] using h
  | select =>
      simp only [step, onSelect]
      cases hc : st.carModel with
      | none => simpa [reticleMatchesLog] using h
      | some car => by_cases hv : st.reticleVisible <;> simpa [reticleMatchesLog, hv] using h
  | touchstart ts =>
      simp only [step, onTouchStart]
      rcases ts with _ | ⟨t0, _ | ⟨t1, _ | _⟩⟩ <;> cases hc : st.carModel <;>
        simpa [reticleMatchesLog, hc] using h
  | touchmove ts =>
      rcases ts with _ | ⟨t0, _ | ⟨t1, _ | _⟩⟩ <;> cases hc : st.carModel <;>
        by_cases hp : st.initialDistance > 0 <;>
        simpa [reticleMatchesLog, step, onTouchMove, hc, hp] using h

/-- Running any event list preserves the C1 relation. -/
theorem runFrom_reticle (es : List Event) :
    ∀ st log, reticleMatchesLog st log →
      reticleMatchesLog (runFrom st es).1 (log ++ (runFrom st es).2) := by
  induction es with
  | nil => intro st log h; simpa [runFrom] using h
  | cons e es ih =>
    intro st log h
    have h2 := ih (step st e).1 (log ++ (step st e).2) (step_reticle st e log h)
    show reticleMatchesLog (runFrom (step st e).1 es).1
      (log ++ ((step st e).2 ++ (runFrom (step st e).1 es).2))
    rwa [← List.append_assoc]

/-- C1: for every frame processed while a hit-test source exists, the per-frame
update leaves the reticle visible iff that frame's hit-test result list is
non-empty; and along any execution from the start state, whenever the reticle
is visible, the most recent frame processed with a source present returned a
non-empty list and the reticle matrix equals the pose of its first (index 0)
result (`reticleMatchesLog`). -/
theorem c1_reticle_tracks_hit_results :
    (∀ st s hits src, st.hitTestSource = some src →
        ((renderFrame st s hits).1.reticleVisible = true ↔ hits ≠ []))
    ∧ ∀ es, reticleMatchesLog (runFrom initState es).1 (runFrom initState es).2 := by
  constructor
  · intro st s hits src hsrc
    have hsrc1 : (latchPhase st s).1.hitTestSource = some src := by
      unfold latchPhase; split <;> simpa using hsrc
    show (queryPhase (latchPhase st s).1 s hits).1.reticleVisible = true ↔ hits ≠ []
    unfold queryPhase
    rw [hsrc1]
    cases hits <;> simp
  · intro es
    have h0 : reticleMatchesLog initState [] := by
      constructor
      · simp [initState, lastQuery]
      · intro fs ss p rest hq
        simp [lastQuery] at hq
    simpa using runFrom_reticle es initState [] h0

/-- Witness for C1: a frame with one hit makes the reticle visible, and on a
concrete three-event trace the final reticle matrix is the delivered pose. -/
theorem c1_reticle_tracks_hit_results_witness :
    ((renderFrame stSourced 1 [poseA]).1.reticleVisible = true ↔ ([poseA] : List Pose) ≠ [])
    ∧ reticleMatchesLog
        (runFrom initState [Event.frame 1 [], Event.resolveHitTestSource 1, Event.frame 1 [poseA]]).1
        (runFrom initState [Event.frame 1 [], Event.resolveHitTestSource 1, Event.frame 1 [poseA]]).2
    ∧ (runFrom initState [Event.frame 1 [], Event.resolveHitTestSource 1, Event.frame 1 [poseA]]).1.reticleMatrix = poseA :=
  ⟨c1_reticle_tracks_hit_results.1 stSourced 1 [poseA] ⟨1⟩ rfl,
   c1_reticle_tracks_hit_results.2 _,
   (c1_reticle_tracks_hit_results.2 [Event.frame 1 [], Event.resolveHitTestSource 1, Event.frame 1 [poseA]]).2 1 1 poseA []
     (by simp [runFrom, step, renderFrame, latchPhase, queryPhase, resolveRequest, initState, lastQuery, LogEntry.isQuery])⟩

/-- The session-locality check distributes over log concatenation. -/
theorem logSessionLocal_append (a b : List LogEntry) :
    logSessionLocal (a ++ b) = (logSessionLocal a && logSessionLocal b) :=
  List.all_append

/-- The query block never changes the cached source, the pending requests or
the registered end handlers. -/
theorem queryPhase_sourceFields (st : AppState) (s : Nat) (hits : List Pose) :
    (queryPhase st s hits).1.hitTestSource = st.hitTestSource
    ∧ (queryPhase st s hits).1.pendingRequests = st.pendingRequests
    ∧ (queryPhase st s hits).1.endHandlers = st.endHandlers := by
  unfold queryPhase
  cases hsrc : st.hitTestSource <;> cases hits <;> simp [hsrc]

/-- Invariant induction for C5: if every resolution is delivered before its
session ends and sessions are serial, every hit-test query along the run is
made against a source of the querying frame's own session. -/
theorem c5_aux (es : List Event) :
    ∀ st seen ended, noLateResolve ended es = true → framesSerial seen ended es = true →
      SourceOk st seen ended →
      logSessionLocal (runFrom st es).2 = true := by
  induction es with
  | nil => intro st seen ended _ _ _; rfl
  | cons e es ih =>
    intro st seen ended hnl hfs hok
    show logSessionLocal ((step st e).2 ++ (runFrom (step st e).1 es).2) = true
    rw [logSessionLocal_append, Bool.and_eq_true]
    cases e with
    | frame s hits =>
        simp only [framesSerial] at hfs
        rw [Bool.and_eq_true] at hfs
        obtain ⟨hseen, hfs2⟩ := hfs
        have hnl2 : noLateResolve ended es = true := by simpa [noLateResolve] using hnl
        have hls : (latchPhase st s).1.hitTestSource = st.hitTestSource := by
          unfold latchPhase; split <;> simp
        have hsrcsess : ∀ src, st.hitTestSource = some src → src.session = s := by
          intro src hsrc
          obtain ⟨hne, _, hseenm⟩ := hok.1 src hsrc
          have hb := List.all_eq_true.mp hseen src.session hseenm
          simp only [Bool.or_eq_true, beq_iff_eq, decide_eq_true_eq] at hb
          rcases hb with h1 | h2
          · exact h1
          · exact absurd h2 hne
        constructor
        · -- the emitted log is session-local
          show logSessionLocal ((latchPhase st s).2 ++ (queryPhase (latchPhase st s).1 s hits).2) = true
          rw [logSessionLocal_append, Bool.and_eq_true]
          constructor
          · unfold latchPhase
            split <;> simp [logSessionLocal, LogEntry.sameSession]
          · unfold queryPhase
            rw [hls]
            cases hsrc : st.hitTestSource with
            | none => simp [logSessionLocal]
            | some src =>
                have hss := hsrcsess src hsrc
                cases hits <;> simp [logSessionLocal, LogEntry.sameSession, hss]
        · -- invariant is preserved; recurse
          apply ih _ (s :: seen) ended hnl2 hfs2
          show SourceOk (queryPhase (latchPhase st s).1 s hits).1 (s :: seen) ended
          have hq := queryPhase_sourceFields (latchPhase st s).1 s hits
          constructor
          · intro src hsrc
            rw [hq.1, hls] at hsrc
            obtain ⟨h1, h2, h3⟩ := hok.1 src hsrc
            refine ⟨h1, ?_, List.mem_cons_of_mem _ h3⟩
            rw [hq.2.2]
            by_cases hl : st.hitTestSourceRequested = false
            · simp only [latchPhase, if_pos hl]
              simp only [List.mem_cons]
              right
              exact h2
            · simp only [latchPhase, if_neg hl]
              exact h2
          · intro x hx
            rw [hq.2.1] at hx
            rw [hq.2.2]
            by_cases hl : st.hitTestSourceRequested = false
            · simp only [latchPhase, if_pos hl] at hx ⊢
              simp only [List.mem_append, List.mem_singleton] at hx
              simp only [List.mem_cons]
              rcases hx with hx | hx
              · rcases hok.2 x hx with ⟨ha, hb⟩
                exact ⟨Or.inr ha, Or.inr hb⟩
              · subst hx
                exact ⟨Or.inl rfl, Or.inl rfl⟩
            · simp only [latchPhase, if_neg hl] at hx ⊢
              simp only [List.mem_cons]
              rcases hok.2 x hx with ⟨ha, hb⟩
              exact ⟨ha, Or.inr hb⟩
    | resolveHitTestSource s =>
        simp only [noLateResolve, Bool.and_eq_true, decide_eq_true_eq] at hnl
        obtain ⟨hnotend, hnl2⟩ := hnl
        have hfs2 : framesSerial seen ended es = true := by simpa [framesSerial] using hfs
        refine ⟨rfl, ?_⟩
        apply ih _ seen ended hnl2 hfs2
        show SourceOk (resolveRequest st s) seen ended
        unfold resolveRequest
        split
        · rename_i hmem
          constructor
          · intro src hsrc
            simp only [Option.some.injEq] at hsrc
            subst hsrc
            rcases hok.2 s hmem with ⟨ha, hb⟩
            exact ⟨hnotend, ha, hb⟩
          · intro x hx
            simp only at hx
            exact hok.2 x (List.mem_of_mem_erase hx)
        · exact hok
    | sessionEnd s =>
        have hnl2 : noLateResolve (s :: ended) es = true := by simpa [noLateResolve] using hnl
        have hfs2 : framesSerial seen (s :: ended) es = true := by simpa [framesSerial] using hfs
        refine ⟨rfl, ?_⟩
        apply ih _ seen (s :: ended) hnl2 hfs2
        show SourceOk (onSessionEnd st s) seen (s :: ended)
        unfold onSessionEnd
        split
        · constructor
          · intro src hsrc
            simp at hsrc
          · intro x hx
            simp only at hx
            exact hok.2 x hx
        · rename_i hnomem
          constructor
          · intro src hsrc
            obtain ⟨h1, h2, h3⟩ := hok.1 src hsrc
            refine ⟨?_, h2, h3⟩
            intro hmem
            rcases List.mem_cons.mp hmem with heq | hmem2
            · subst heq
              exact hnomem h2
            · exact h1 hmem2
          · exact hok.2
    | select =>
        have hnl2 : noLateResolve ended es = true := by simpa [noLateResolve] using hnl
        have hfs2 : framesSerial seen ended es = true := by simpa [framesSerial] using hfs
        have hfld : (onSelect st).hitTestSource = st.hitTestSource
            ∧ (onSelect st).pendingRequests = st.pendingRequests
            ∧ (onSelect st).endHandlers = st.endHandlers := by
          unfold onSelect
          cases hc : st.carModel <;> by_cases hv : st.reticleVisible <;> simp [hv]
        refine ⟨rfl, ?_⟩
        apply ih _ seen ended hnl2 hfs2
        show SourceOk (onSelect st) seen ended
        unfold SourceOk
        rw [hfld.1, hfld.2.1, hfld.2.2]
        exact hok
    | touchstart ts =>
        have hnl2 : noLateResolve ended es = true := by simpa [noLateResolve] using hnl
        have hfs2 : framesSerial seen ended es = true := by simpa [framesSerial] using hfs
        have hfld : (onTouchStart st ts).hitTestSource = st.hitTestSource
            ∧ (onTouchStart st ts).pendingRequests = st.pendingRequests
            ∧ (onTouchStart st ts).endHandlers = st.endHandlers := by
          unfold onTouchStart
          rcases ts with _ | ⟨t0, _ | ⟨t1, _ | _⟩⟩ <;> cases hc : st.carModel <;> simp [hc]
        refine ⟨rfl, ?_⟩
        apply ih _ seen ended hnl2 hfs2
        show SourceOk (onTouchStart st ts) seen ended
        unfold SourceOk
        rw [hfld.1, hfld.2.1, hfld.2.2]
        exact hok
    | touchmove ts =>
        have hnl2 : noLateResolve ended es = true := by simpa [noLateResolve] using hnl
        have hfs2 : framesSerial seen ended es = true := by simpa [framesSerial] using hfs
        have hfld : (onTouchMove st ts).hitTestSource = st.hitTestSource
            ∧ (onTouchMove st ts).pendingRequests = st.pendingRequests
            ∧ (onTouchMove st ts).endHandlers = st.endHandlers := by
          unfold onTouchMove
          rcases ts with _ | ⟨t0, _ | ⟨t1, _ | _⟩⟩ <;> cases hc : st.carModel <;>
            by_cases hp : st.initialDistance > 0 <;> simp [hc, hp]
        refine ⟨rfl, ?_⟩
        apply ih _ seen ended hnl2 hfs2
        show SourceOk (onTouchMove st ts) seen ended
        unfold SourceOk
        rw [hfld.1, hfld.2.1, hfld.2.2]
        exact hok

/-- C5 counterexample: the trace "frame of session 1 (request issued, still
pending); session 1 ends (latch and cached source duly cleared); the pending
resolution is delivered AFTER the end event (re-caching the session-1
source); first frame of session 2" makes the session-2 frame query the
session-1 source: the claim that no frame of a subsequent session ever
queries an earlier session's source — "including when the session ends while
the asynchronous source request is still pending" — is false on this input. -/
theorem c5_stale_source_counterexample :
    (runFrom initState [Event.frame 1 [], Event.sessionEnd 1, Event.resolveHitTestSource 1, Event.frame 2 []]).2
      = [LogEntry.request 1, LogEntry.request 2, LogEntry.query 2 1 []]
    ∧ logSessionLocal (runFrom initState [Event.frame 1 [], Event.sessionEnd 1, Event.resolveHitTestSource 1, Event.frame 2 []]).2 = false := by
  have h : (runFrom initState [Event.frame 1 [], Event.sessionEnd 1, Event.resolveHitTestSource 1, Event.frame 2 []]).2
      = [LogEntry.request 1, LogEntry.request 2, LogEntry.query 2 1 []] := by
    simp [runFrom, step, renderFrame, latchPhase, queryPhase, onSessionEnd, resolveRequest, initState]
  exact ⟨h, by rw [h]; rfl⟩

/-- C5 as amended: after a session-end event fires (for a session whose end
listener is registered), the latch is false and the cached hit-test source
handle is null; and provided every pending resolution is delivered before its
session's end event (`noLateResolve`) and sessions are serial
(`framesSerial`), no frame ever queries a hit-test source obtained during a
different (in particular an earlier) session.  The proviso is forced by the
counterexample: a resolution delivered after its session's end re-caches the
stale source, which the next session's first frame then queries. -/
theorem c5_session_end_clears_source :
    (∀ st s, s ∈ st.endHandlers →
        onSessionEnd st s = { st with hitTestSourceRequested := false, hitTestSource := none })
    ∧ ∀ es, noLateResolve [] es = true → framesSerial [] [] es = true →
        logSessionLocal (runFrom initState es).2 = true := by
  constructor
  · intro st s hmem
    unfold onSessionEnd
    rw [if_pos hmem]
  · intro es h1 h2
    apply c5_aux es initState [] [] h1 h2
    constructor
    · intro src hsrc
      simp [initState] at hsrc
    · intro x hx
      simp [initState] at hx

/-- Witness for the amended C5: the end handler clears the latch and the
source at a concrete state, and on a concrete two-session trace in which the
resolution arrives before the end event, every query is session-local. -/
theorem c5_session_end_clears_source_witness :
    onSessionEnd stSourcedHandler 1
      = { stSourcedHandler with hitTestSourceRequested := false, hitTestSource := none }
    ∧ logSessionLocal (runFrom initState [Event.frame 1 [], Event.resolveHitTestSource 1,
        Event.frame 1 [poseA], Event.sessionEnd 1, Event.frame 2 []]).2 = true :=
  ⟨c5_session_end_clears_source.1 stSourcedHandler 1 (by decide),
   c5_session_end_clears_source.2 _ (by decide) (by decide)⟩
